import Mathlib

/-!
Verification of the threshold-scheduling and acceptance-decision subsystem
of a pyABC snapshot.

The acceptance functions are shallow embeddings of `pyabc/acceptor.py`.
Python callables that may raise are modelled as `Option`-valued functions
(`none` = the call raised); real-valued quantities are modelled over `ℚ`.
The epsilon/temperature schedule module is not part of the available
sources (only its test suite is), so those definitions are modelled from
the specification text and are marked as such in their doc comments.
-/

set_option autoImplicit false

/-- Shallow embedding of `accept_use_current_time` from `pyabc/acceptor.py`:
`d = distance_function(t, x, x_0); accept = d <= eps(t); return d, accept`.
A raising call of the distance function or of `eps` makes the whole call
raise (`none`). -/
def accept_use_current_time {X : Type} (t : ℕ) (distance_function : ℕ → X → X → Option ℚ)
    (eps : ℕ → Option ℚ) (x x_0 : X) : Option (ℚ × Bool) :=
  match distance_function t x x_0 with
  | none => none
  | some d =>
    match eps t with
    | none => none
    | some e => some (d, decide (d ≤ e))

/-- Shallow embedding of the `for t_prev in range(0, t)` loop of
`accept_use_complete_history`: `accept` is the loop-carried flag (entered
with the current-generation result, which is `true` when the loop runs),
an exception from the distance function or from `eps` leaves `accept`
unchanged and moves on (`try ... except Exception: pass`), a successful
check overwrites `accept` and breaks out of the loop when it rejects. -/
def historyLoop {X : Type} (distance_function : ℕ → X → X → Option ℚ)
    (eps : ℕ → Option ℚ) (x x_0 : X) : Bool → List ℕ → Bool
  | accept, [] => accept
  | accept, t_prev :: rest =>
    match distance_function t_prev x x_0 with
    | none => historyLoop distance_function eps x x_0 accept rest
    | some d_prev =>
      match eps t_prev with
      | none => historyLoop distance_function eps x x_0 accept rest
      | some e_prev =>
        if d_prev ≤ e_prev then
          historyLoop distance_function eps x x_0 (decide (d_prev ≤ e_prev)) rest
        else
          decide (d_prev ≤ e_prev)

/-- Shallow embedding of `accept_use_complete_history` from
`pyabc/acceptor.py`: first the current-generation check (whose failures
propagate), then, only if it accepts, the loop over generations
`0, ..., t-1`. The returned distance is the current-generation one. -/
def accept_use_complete_history {X : Type} (t : ℕ) (distance_function : ℕ → X → X → Option ℚ)
    (eps : ℕ → Option ℚ) (x x_0 : X) : Option (ℚ × Bool) :=
  match distance_function t x x_0 with
  | none => none
  | some d =>
    match eps t with
    | none => none
    | some e =>
      let accept := decide (d ≤ e)
      let accept :=
        if accept then historyLoop distance_function eps x x_0 accept (List.range t)
        else accept
      some (d, accept)

/-- Specification-side reading of one prior-generation check: `true` when
the check passes or cannot be evaluated (skip), `false` exactly on a
genuine rejection. Used to state what the history loop computes. -/
def priorPass {X : Type} (distance_function : ℕ → X → X → Option ℚ)
    (eps : ℕ → Option ℚ) (x x_0 : X) (t_prev : ℕ) : Bool :=
  match distance_function t_prev x x_0, eps t_prev with
  | some d_prev, some e_prev => decide (d_prev ≤ e_prev)
  | _, _ => true

/-- Modelled from the spec: the per-instance Schedule State of an Epsilon
or Temperature schedule (the schedule module is absent from the sources),
an append-only mapping from generation index to the frozen value. -/
structure ScheduleState where
  frozen : List (ℕ × ℚ)
deriving DecidableEq

/-- First value recorded for key `t` in an association list. -/
def findFrozen (t : ℕ) : List (ℕ × ℚ) → Option ℚ
  | [] => none
  | (k, v) :: rest => if k = t then some v else findFrozen t rest

/-- Modelled from the spec: `schedule(t)`, the lookup of the frozen value
for generation `t` (`none` = not yet computed). -/
def ScheduleState.lookup (s : ScheduleState) (t : ℕ) : Option ℚ :=
  findFrozen t s.frozen

/-- Modelled from the spec: freezing a value for generation `t`. The
mapping is append-only: a generation that already has a value is never
overwritten. -/
def ScheduleState.record (s : ScheduleState) (t : ℕ) (v : ℚ) : ScheduleState :=
  if (s.lookup t).isSome then s else ⟨s.frozen ++ [(t, v)]⟩

/-- A lifecycle operation on a schedule instance: `init`/`update` compute
and freeze the value for a generation, `read` is `schedule(t)` and leaves
the state untouched. -/
inductive SchedOp (D : Type) where
  | init (t : ℕ) (data : D)
  | update (t : ℕ) (data : D)
  | read (t : ℕ)

/-- Modelled from the spec: applying one lifecycle operation, for a
schedule variant whose initial and per-update values are computed by
`initVal` and `updVal` from the generation index and the provided data. -/
def applyOp {D : Type} (initVal updVal : ℕ → D → ℚ) (s : ScheduleState) :
    SchedOp D → ScheduleState
  | SchedOp.init t data => s.record t (initVal t data)
  | SchedOp.update t data => s.record t (updVal t data)
  | SchedOp.read _ => s

/-- A whole lifecycle: the operations applied in order. -/
def applyOps {D : Type} (initVal updVal : ℕ → D → ℚ) (s : ScheduleState)
    (ops : List (SchedOp D)) : ScheduleState :=
  ops.foldl (applyOp initVal updVal) s

/-- Insertion into a list of (distance, weight) pairs sorted by distance. -/
def insertSorted (p : ℚ × ℚ) : List (ℚ × ℚ) → List (ℚ × ℚ)
  | [] => [p]
  | q :: rest => if p.1 ≤ q.1 then p :: q :: rest else q :: insertSorted p rest

/-- Insertion sort of (distance, weight) pairs by ascending distance. -/
def sortPairs : List (ℚ × ℚ) → List (ℚ × ℚ)
  | [] => []
  | p :: rest => insertSorted p (sortPairs rest)

/-- Modelled from the spec: the cumulative-weight scan of the weighted
empirical quantile. Walking the sorted sample with normalized weights, the
value at which the cumulative weight crosses `alpha` is selected; when the
cumulative weight lands on `alpha` exactly, the quantile is the midpoint
of the two values bounding the crossing. -/
def quantileScan (alpha : ℚ) : ℚ → List (ℚ × ℚ) → ℚ
  | _, [] => 0
  | acc, (v, w) :: rest =>
    let c := acc + w
    if alpha < c then v
    else if alpha = c then
      match rest with
      | [] => v
      | (v2, _) :: _ => (v + v2) / 2
    else quantileScan alpha c rest

/-- Modelled from the spec: `Q_alpha`, the weighted empirical quantile of
a (distance, weight) sample — values sorted ascending, weights normalized
to sum 1, cumulative weight crossing `alpha` selects the value. -/
def weightedQuantile (alpha : ℚ) (sample : List (ℚ × ℚ)) : ℚ :=
  let total := (sample.map Prod.snd).sum
  let sorted := sortPairs sample
  quantileScan alpha 0 (sorted.map (fun p => (p.1, p.2 / total)))

/-- Configuration of the quantile-based epsilon schedule. -/
structure QuantileConfig where
  initial_epsilon : ℚ
  alpha : ℚ
  quantile_multiplier : ℚ
  weighted : Bool

/-- Modelled from the spec: `QuantileEpsilon.initialize` freezes
generation `t0` to exactly `initial_epsilon`, with no computation on the
provided sample. -/
def qeInitVal (cfg : QuantileConfig) : ℕ → List (ℚ × ℚ) → ℚ :=
  fun _ _ => cfg.initial_epsilon

/-- Modelled from the spec: `QuantileEpsilon.update` freezes generation
`t` to `quantile_multiplier * Q_alpha(distances, weights if weighted else
uniform)`. -/
def qeUpdVal (cfg : QuantileConfig) : ℕ → List (ℚ × ℚ) → ℚ :=
  fun _ sample =>
    let weightedSample := if cfg.weighted then sample
      else sample.map (fun p => (p.1, 1))
    cfg.quantile_multiplier * weightedQuantile cfg.alpha weightedSample

/-- Modelled from the spec: `ListEpsilon.__call__`: `schedule(t) =
list[t]`, raising an out-of-range error (`none`) when `t >= len(list)`,
with no fallback. -/
def listEpsilonCall (l : List ℚ) (t : ℕ) : Option ℚ :=
  l[t]?

/-- Evaluating all configured Schemes of a Temperature schedule; the
whole evaluation raises (`none`) as soon as one scheme raises. -/
def evalSchemes {D : Type} (schemes : List (ℕ → D → Option ℚ)) (t : ℕ) (data : D) :
    Option (List ℚ) :=
  match schemes with
  | [] => some []
  | sch :: rest =>
    match sch t data, evalSchemes rest t data with
    | some c, some cs => some (c :: cs)
    | _, _ => none

/-- Modelled from the spec: the combination of the Schemes' candidate
temperatures — the minimum candidate, floored at 1. -/
def combineCandidates : List ℚ → ℚ
  | [] => 1
  | c :: cs => max 1 (cs.foldl min c)

/-- Modelled from the spec: `Temperature.update`. When `t` is the final
generation index (`max_nr_populations - 1`) the frozen value is forced to
exactly 1 and no scheme is consulted; otherwise every configured scheme is
evaluated (a scheme failure makes the update raise, `none`) and the frozen
value is the combination of the candidates. -/
def temperatureUpdate {D : Type} (max_nr_populations : ℕ)
    (schemes : List (ℕ → D → Option ℚ)) (t : ℕ) (data : D) (s : ScheduleState) :
    Option ScheduleState :=
  if t = max_nr_populations - 1 then
    some (s.record t 1)
  else
    match evalSchemes schemes t data with
    | none => none
    | some cands => some (s.record t (combineCandidates cands))

/-- Concrete distance function for witnesses: always distance 2. -/
def dfConst2 : ℕ → ℕ → ℕ → Option ℚ := fun _ _ _ => some 2

/-- Concrete distance function for witnesses: raises for generation 0,
distance 2 otherwise. -/
def dfSkip0 : ℕ → ℕ → ℕ → Option ℚ := fun t_prev _ _ => if t_prev = 0 then none else some 2

/-- Concrete distance function for witnesses: always raises. -/
def dfRaise : ℕ → ℕ → ℕ → Option ℚ := fun _ _ _ => none

/-- Concrete threshold schedule for witnesses: always 3. -/
def epsConst3 : ℕ → Option ℚ := fun _ => some 3

/-- Concrete threshold schedule for witnesses: always 1. -/
def epsConst1 : ℕ → Option ℚ := fun _ => some 1

/-- Concrete threshold schedule for witnesses: always raises. -/
def epsRaise : ℕ → Option ℚ := fun _ => none

section AcceptorLemmas

variable {X : Type} (df : ℕ → X → X → Option ℚ) (eps : ℕ → Option ℚ) (x x_0 : X)

/-- A prior generation whose distance or threshold raises is skipped by
the history loop, whatever the loop-carried flag is. -/
theorem historyLoop_skip (t_prev : ℕ) (rest : List ℕ) (b : Bool)
    (h : df t_prev x x_0 = none ∨ eps t_prev = none) :
    historyLoop df eps x x_0 b (t_prev :: rest) = historyLoop df eps x x_0 b rest := by
  rcases h with h | h
  · simp only [historyLoop, h]
  · cases hdf : df t_prev x x_0 with
    | none => simp only [historyLoop, hdf]
    | some d_prev => simp only [historyLoop, hdf, h]

/-- Entered with flag `true`, the history loop computes the conjunction of
all non-skipped prior checks. -/
theorem historyLoop_eq_all (l : List ℕ) :
    historyLoop df eps x x_0 true l = l.all (priorPass df eps x x_0) := by
  induction l with
  | nil => rfl
  | cons t_prev rest ih =>
    cases hdf : df t_prev x x_0 with
    | none => simp only [historyLoop, hdf, List.all_cons, priorPass, ih, Bool.true_and]
    | some d_prev =>
      cases heps : eps t_prev with
      | none => simp only [historyLoop, hdf, heps, List.all_cons, priorPass, ih, Bool.true_and]
      | some e_prev =>
        by_cases hle : d_prev ≤ e_prev
        · simp only [historyLoop, hdf, heps, if_pos hle, List.all_cons, priorPass,
            decide_eq_true hle, ih, Bool.true_and]
        · simp only [historyLoop, hdf, heps, if_neg hle, List.all_cons, priorPass,
            decide_eq_false hle, ih, Bool.false_and]

/-- Characterization of `accept_use_complete_history` on inputs where the
current-generation evaluations succeed: the returned pair is the current
distance together with the conjunction of the current check and all
non-skipped prior checks. -/
theorem complete_history_eq (t : ℕ) (d e : ℚ)
    (hd : df t x x_0 = some d) (he : eps t = some e) :
    accept_use_complete_history t df eps x x_0 =
      some (d, decide (d ≤ e) && (List.range t).all (priorPass df eps x x_0)) := by
  by_cases hle : d ≤ e
  · simp only [accept_use_complete_history, hd, he, decide_eq_true hle, if_pos,
      historyLoop_eq_all, Bool.true_and]
  · simp [accept_use_complete_history, hd, he, decide_eq_false hle]

end AcceptorLemmas

/-- An existing entry of the frozen map is still found after appending. -/
theorem findFrozen_append_of_some (t : ℕ) (l l2 : List (ℕ × ℚ)) (v : ℚ)
    (h : findFrozen t l = some v) : findFrozen t (l ++ l2) = some v := by
  induction l with
  | nil => simp [findFrozen] at h
  | cons p rest ih =>
    obtain ⟨k, w⟩ := p
    by_cases hk : k = t
    · simpa only [findFrozen, List.cons_append, if_pos hk] using
        (by simpa only [findFrozen, if_pos hk] using h)
    · simp only [findFrozen, List.cons_append, if_neg hk]
      exact ih (by simpa only [findFrozen, if_neg hk] using h)

/-- Appending an entry for a key that is absent makes it found. -/
theorem findFrozen_append_self (t : ℕ) (l : List (ℕ × ℚ)) (v : ℚ)
    (h : findFrozen t l = none) : findFrozen t (l ++ [(t, v)]) = some v := by
  induction l with
  | nil => simp [findFrozen]
  | cons p rest ih =>
    obtain ⟨k, w⟩ := p
    by_cases hk : k = t
    · simp [findFrozen, if_pos hk] at h
    · simp only [findFrozen, List.cons_append, if_neg hk]
      exact ih (by simpa only [findFrozen, if_neg hk] using h)

/-- Recording any further value never disturbs an already frozen one. -/
theorem lookup_record_stable (s : ScheduleState) (t t' : ℕ) (v v' : ℚ)
    (h : s.lookup t = some v) : (s.record t' v').lookup t = some v := by
  rw [ScheduleState.record]
  by_cases hs : (s.lookup t').isSome
  · rw [if_pos hs]; exact h
  · rw [if_neg hs]
    exact findFrozen_append_of_some t s.frozen [(t', v')] v h

/-- Recording a value for a fresh generation freezes exactly it. -/
theorem lookup_record_fresh (s : ScheduleState) (t : ℕ) (v : ℚ)
    (h : s.lookup t = none) : (s.record t v).lookup t = some v := by
  rw [ScheduleState.record]
  rw [if_neg (by simp [h])]
  exact findFrozen_append_self t s.frozen v h

/-- C1: For every generation `t ≥ 1` and all inputs on which the
current-generation check accepts, `accept_use_complete_history` re-checks
the prior generations `0, ..., t-1` (the increasing enumeration
`List.range t`) and its final accept flag is the conjunction of the
current-generation check with all prior-generation checks that did not
raise; the scan stops at the first prior generation whose distance
exceeds its threshold (the rest of the list is irrelevant); if the
current-generation check rejects, the result is `(d, false)` for every
behaviour of the distance function and thresholds at other generations. -/
theorem complete_history_accept_flag {X : Type} (t : ℕ) (df : ℕ → X → X → Option ℚ)
    (eps : ℕ → Option ℚ) (x x_0 : X) (d e : ℚ) (ht : 1 ≤ t)
    (hd : df t x x_0 = some d) (he : eps t = some e) :
    (d ≤ e →
      accept_use_complete_history t df eps x x_0 =
        some (d, (List.range t).all (priorPass df eps x x_0)))
    ∧ (¬ d ≤ e → accept_use_complete_history t df eps x x_0 = some (d, false))
    ∧ (∀ (j : ℕ) (rest : List ℕ) (dj ej : ℚ), df j x x_0 = some dj → eps j = some ej →
      ¬ dj ≤ ej → historyLoop df eps x x_0 true (j :: rest) = false) := by
  refine ⟨fun hle => ?_, fun hle => ?_, fun j rest dj ej hdj hej hnle => ?_⟩
  · rw [complete_history_eq df eps x x_0 t d e hd he, decide_eq_true hle, Bool.true_and]
  · rw [complete_history_eq df eps x x_0 t d e hd he, decide_eq_false hle, Bool.false_and]
  · simp only [historyLoop, hdj, hej, if_neg hnle, decide_eq_false hnle]

/-- Witness for C1 at concrete inputs: distance 2 everywhere; with
threshold 3 everywhere the history is scanned, with threshold 1 the
current check rejects immediately, and a rejecting head generation makes
the loop return false whatever follows. -/
theorem complete_history_accept_flag_witness :
    (accept_use_complete_history 1 dfConst2 epsConst3 0 0 =
      some (2, (List.range 1).all (priorPass dfConst2 epsConst3 0 0)))
    ∧ accept_use_complete_history 1 dfConst2 epsConst1 0 0 = some (2, false)
    ∧ historyLoop dfConst2 epsConst1 0 0 true (0 :: [5, 6]) = false :=
  ⟨(complete_history_accept_flag 1 dfConst2 epsConst3 0 0 2 3 (by norm_num) rfl rfl).1
      (by norm_num),
   (complete_history_accept_flag 1 dfConst2 epsConst1 0 0 2 1 (by norm_num) rfl rfl).2.1
      (by norm_num),
   (complete_history_accept_flag 1 dfConst2 epsConst1 0 0 2 1 (by norm_num) rfl rfl).2.2
      0 [5, 6] 2 1 rfl rfl (by norm_num)⟩

/-- C2: the current-time policy returns the pair of the current distance
and the comparison with the current threshold (boundary equality
accepting), for every distance function and threshold schedule — no other
generation is consulted. -/
theorem current_time_policy_spec {X : Type} (t : ℕ) (df : ℕ → X → X → Option ℚ)
    (eps : ℕ → Option ℚ) (x x_0 : X) (d e : ℚ)
    (hd : df t x x_0 = some d) (he : eps t = some e) :
    accept_use_current_time t df eps x x_0 = some (d, decide (d ≤ e))
    ∧ (d = e → accept_use_current_time t df eps x x_0 = some (d, true)) := by
  have hmain : accept_use_current_time t df eps x x_0 = some (d, decide (d ≤ e)) := by
    simp only [accept_use_current_time, hd, he]
  exact ⟨hmain, fun hde => by rw [hmain, decide_eq_true (le_of_eq hde)]⟩

/-- Witness for C2 at distance 2 and threshold 3 (and the boundary case
distance 3, threshold 3). -/
theorem current_time_policy_spec_witness :
    accept_use_current_time 5 dfConst2 epsConst3 0 0 = some (2, true)
    ∧ accept_use_current_time 5 (fun _ _ _ => some 3) epsConst3 0 0 = some (3, true) := by
  constructor
  · rw [(current_time_policy_spec 5 dfConst2 epsConst3 0 0 2 3 rfl rfl).1,
      decide_eq_true (show (2:ℚ) ≤ 3 by norm_num)]
  · exact (current_time_policy_spec 5 (fun _ _ _ => some 3) epsConst3 0 0 3 3 rfl rfl).2 rfl

/-- C3: a prior generation whose distance or threshold raises is skipped:
the loop continues unchanged (no propagation, no rejection, no influence
on the remaining checks), and in the concrete scenario of a t = 2 check
that accepts with generation 0 failing and generation 1 succeeding, the
final decision is exactly the generation-1 check. -/
theorem prior_failure_skipped {X : Type} (df : ℕ → X → X → Option ℚ)
    (eps : ℕ → Option ℚ) (x x_0 : X) :
    (∀ (t_prev : ℕ) (rest : List ℕ), (df t_prev x x_0 = none ∨ eps t_prev = none) →
      historyLoop df eps x x_0 true (t_prev :: rest) = historyLoop df eps x x_0 true rest)
    ∧ (∀ (t : ℕ) (d e : ℚ), df t x x_0 = some d → eps t = some e →
      (accept_use_complete_history t df eps x x_0).isSome = true)
    ∧ (∀ (d2 e2 d1 e1 : ℚ), (df 0 x x_0 = none ∨ eps 0 = none) →
      df 1 x x_0 = some d1 → eps 1 = some e1 →
      df 2 x x_0 = some d2 → eps 2 = some e2 → d2 ≤ e2 →
      accept_use_complete_history 2 df eps x x_0 = some (d2, decide (d1 ≤ e1))) := by
  refine ⟨fun t_prev rest h => historyLoop_skip df eps x x_0 t_prev rest true h,
    fun t d e hd he => ?_, fun d2 e2 d1 e1 h0 hd1 he1 hd2 he2 hle2 => ?_⟩
  · rw [complete_history_eq df eps x x_0 t d e hd he]; rfl
  · have hp0 : priorPass df eps x x_0 0 = true := by
      rcases h0 with h | h
      · simp [priorPass, h]
      · cases hdf0 : df 0 x x_0 with
        | none => simp [priorPass, hdf0]
        | some dp => simp [priorPass, hdf0, h]
    have hp1 : priorPass df eps x x_0 1 = decide (d1 ≤ e1) := by
      simp [priorPass, hd1, he1]
    rw [complete_history_eq df eps x x_0 2 d2 e2 hd2 he2, decide_eq_true hle2, Bool.true_and,
      show List.range 2 = [0, 1] from rfl]
    simp only [List.all_cons, List.all_nil, hp0, hp1, Bool.true_and, Bool.and_true]

/-- Witness for C3 with a distance function raising exactly at generation
0 and succeeding (distance 2) elsewhere, against threshold 3. -/
theorem prior_failure_skipped_witness :
    (historyLoop dfSkip0 epsConst3 0 0 true [0, 1] = historyLoop dfSkip0 epsConst3 0 0 true [1])
    ∧ (accept_use_complete_history 1 dfSkip0 epsConst3 0 0).isSome = true
    ∧ accept_use_complete_history 2 dfSkip0 epsConst3 0 0 = some (2, decide ((2:ℚ) ≤ 3)) :=
  ⟨(prior_failure_skipped dfSkip0 epsConst3 0 0).1 0 [1] (Or.inl rfl),
   (prior_failure_skipped dfSkip0 epsConst3 0 0).2.1 1 2 3 rfl rfl,
   (prior_failure_skipped dfSkip0 epsConst3 0 0).2.2 2 3 2 3 (Or.inl rfl) rfl rfl rfl rfl
      (by norm_num)⟩

/-- C4: a failure of the distance function or of the threshold provider
for the current generation makes `accept_use_complete_history` itself
raise, whereas when both current-generation evaluations succeed the call
returns normally for every behaviour at prior generations. -/
theorem current_failure_propagates {X : Type} (t : ℕ) (df : ℕ → X → X → Option ℚ)
    (eps : ℕ → Option ℚ) (x x_0 : X) :
    (df t x x_0 = none → accept_use_complete_history t df eps x x_0 = none)
    ∧ (eps t = none → accept_use_complete_history t df eps x x_0 = none)
    ∧ (∀ (d e : ℚ), df t x x_0 = some d → eps t = some e →
      (accept_use_complete_history t df eps x x_0).isSome = true) := by
  refine ⟨fun h => ?_, fun h => ?_, fun d e hd he => ?_⟩
  · simp [accept_use_complete_history, h]
  · cases hdf : df t x x_0 with
    | none => simp [accept_use_complete_history, hdf]
    | some d => simp [accept_use_complete_history, hdf, h]
  · rw [complete_history_eq df eps x x_0 t d e hd he]; rfl

/-- Witness for C4: a raising current-generation distance (or threshold)
makes the call raise, while a distance function raising only at prior
generation 0 leaves the call returning normally. -/
theorem current_failure_propagates_witness :
    accept_use_complete_history 1 dfRaise epsConst3 0 0 = none
    ∧ accept_use_complete_history 1 dfConst2 epsRaise 0 0 = none
    ∧ (accept_use_complete_history 1 dfSkip0 epsConst3 0 0).isSome = true :=
  ⟨(current_failure_propagates 1 dfRaise epsConst3 0 0).1 rfl,
   (current_failure_propagates 1 dfConst2 epsRaise 0 0).2.1 rfl,
   (current_failure_propagates 1 dfSkip0 epsConst3 0 0).2.2 2 3 rfl rfl⟩

/-- C5: whenever `accept_use_complete_history` returns normally, the
distance component of the returned pair is the current-generation
distance `distance_function(t, x, x_0)` — never a historical one. -/
theorem returned_distance_is_current {X : Type} (t : ℕ) (df : ℕ → X → X → Option ℚ)
    (eps : ℕ → Option ℚ) (x x_0 : X) (p : ℚ × Bool)
    (h : accept_use_complete_history t df eps x x_0 = some p) :
    df t x x_0 = some p.1 := by
  cases hdf : df t x x_0 with
  | none => simp [accept_use_complete_history, hdf] at h
  | some d =>
    cases heps : eps t with
    | none => simp [accept_use_complete_history, hdf, heps] at h
    | some e =>
      simp only [accept_use_complete_history, hdf, heps, Option.some.injEq] at h
      rw [← h]

/-- Witness for C5 at a run whose prior generation 0 fails: the returned
distance is the generation-2 distance. -/
theorem returned_distance_is_current_witness :
    dfSkip0 2 0 0 = some ((2 : ℚ), true).1 :=
  returned_distance_is_current 2 dfSkip0 epsConst3 0 0 ((2 : ℚ), true) rfl

/-- C10: the complete-history policy only restricts the current-time
decision: an accept by the complete-history check implies an accept by
the current-time check on the same inputs; and at generation 0 the two
policies return identical results (the history range is empty). -/
theorem complete_history_refines_current {X : Type} :
    (∀ (t : ℕ) (df : ℕ → X → X → Option ℚ) (eps : ℕ → Option ℚ) (x x_0 : X) (d : ℚ),
      accept_use_complete_history t df eps x x_0 = some (d, true) →
      accept_use_current_time t df eps x x_0 = some (d, true))
    ∧ (∀ (df : ℕ → X → X → Option ℚ) (eps : ℕ → Option ℚ) (x x_0 : X),
      accept_use_complete_history 0 df eps x x_0 = accept_use_current_time 0 df eps x x_0) := by
  constructor
  · intro t df eps x x_0 d h
    cases hdf : df t x x_0 with
    | none => simp [accept_use_complete_history, hdf] at h
    | some d' =>
      cases heps : eps t with
      | none => simp [accept_use_complete_history, hdf, heps] at h
      | some e =>
        rw [complete_history_eq df eps x x_0 t d' e hdf heps] at h
        simp only [Option.some.injEq, Prod.mk.injEq, Bool.and_eq_true] at h
        obtain ⟨hd', h1, _⟩ := h
        subst hd'
        simp only [accept_use_current_time, hdf, heps, h1]
  · intro df eps x x_0
    cases hdf : df 0 x x_0 with
    | none => simp [accept_use_complete_history, accept_use_current_time, hdf]
    | some d =>
      cases heps : eps 0 with
      | none => simp [accept_use_complete_history, accept_use_current_time, hdf, heps]
      | some e =>
        simp only [accept_use_complete_history, accept_use_current_time, hdf, heps,
          List.range_zero]
        by_cases hle : d ≤ e
        · simp [historyLoop, decide_eq_true hle]
        · simp [decide_eq_false hle]

/-- Witness for C10: a complete-history accept at t = 1 transfers to the
current-time policy, and at t = 0 the two policies agree on concrete
inputs. -/
theorem complete_history_refines_current_witness :
    accept_use_current_time 1 dfConst2 epsConst3 0 0 = some (2, true)
    ∧ accept_use_complete_history 0 dfConst2 epsConst1 0 0 =
        accept_use_current_time 0 dfConst2 epsConst1 0 0 :=
  ⟨complete_history_refines_current.1 1 dfConst2 epsConst3 0 0 2 rfl,
   complete_history_refines_current.2 dfConst2 epsConst1 0 0⟩

/-- C6: updating a Temperature schedule at the final generation index
(`max_nr_populations - 1`) freezes exactly the value 1; the update
succeeds for every scheme list (including schemes that always raise) and
every data value, because the override bypasses the schemes entirely. -/
theorem temperature_final_override {D : Type} (max_nr_populations : ℕ)
    (schemes : List (ℕ → D → Option ℚ)) (t : ℕ) (data : D) (s : ScheduleState)
    (hfin : t = max_nr_populations - 1) (hnew : s.lookup t = none) :
    temperatureUpdate max_nr_populations schemes t data s = some (s.record t 1)
    ∧ (s.record t 1).lookup t = some 1 := by
  constructor
  · simp only [temperatureUpdate, if_pos hfin]
  · exact lookup_record_fresh s t 1 hnew

/-- Witness for C6: three populations, final index t = 2, a single scheme
that always raises — the update still returns normally and freezes 1. -/
theorem temperature_final_override_witness :
    temperatureUpdate 3 [fun (_ : ℕ) (_ : Unit) => (none : Option ℚ)] 2 () ⟨[]⟩
      = some (ScheduleState.record ⟨[]⟩ 2 1)
    ∧ (ScheduleState.record ⟨[]⟩ 2 1).lookup 2 = some 1 :=
  temperature_final_override 3 [fun _ _ => none] 2 () ⟨[]⟩ rfl rfl

/-- C7: the QuantileEpsilon run of the test suite: the 0.5-quantile of
distances [1, 2, 3, 4] under uniform weights (weighted = false replaces
the weights [2, 1, 1, 1]) is 5/2; after initialize at generation 0 and an
update at generation 1, the schedule returns exactly 51/10 = 5.1 for
generation 0 and the multiplier times the quantile, 11/10 * 5/2 = 2.75,
for generation 1. -/
theorem quantile_epsilon_example :
    weightedQuantile (1/2) ([((1:ℚ), (2:ℚ)), (2, 1), (3, 1), (4, 1)].map (fun p => (p.1, 1)))
      = 5/2
    ∧ (applyOps (qeInitVal ⟨51/10, 1/2, 11/10, false⟩) (qeUpdVal ⟨51/10, 1/2, 11/10, false⟩) ⟨[]⟩
        [SchedOp.init 0 [(1, 2), (2, 1), (3, 1), (4, 1)],
         SchedOp.update 1 [(1, 2), (2, 1), (3, 1), (4, 1)]]).lookup 0 = some (51/10)
    ∧ (applyOps (qeInitVal ⟨51/10, 1/2, 11/10, false⟩) (qeUpdVal ⟨51/10, 1/2, 11/10, false⟩) ⟨[]⟩
        [SchedOp.init 0 [(1, 2), (2, 1), (3, 1), (4, 1)],
         SchedOp.update 1 [(1, 2), (2, 1), (3, 1), (4, 1)]]).lookup 1
      = some (11/10 * (5/2)) := by
  refine ⟨?_, ?_, ?_⟩ <;>
    norm_num [applyOps, applyOp, qeInitVal, qeUpdVal, weightedQuantile, sortPairs, insertSorted,
      quantileScan, ScheduleState.record, ScheduleState.lookup, findFrozen]

/-- C8: the List epsilon schedule returns the t-th entry for t within
range and raises an out-of-range error for t beyond the list, with no
fallback; in particular the 4-element schedule [3.5, 2.3, 1, 0.3] raises
at t = 4. -/
theorem list_epsilon_spec :
    (∀ (l : List ℚ) (t : ℕ) (h : t < l.length), listEpsilonCall l t = some (l.get ⟨t, h⟩))
    ∧ (∀ (l : List ℚ) (t : ℕ), l.length ≤ t → listEpsilonCall l t = none)
    ∧ listEpsilonCall [7/2, 23/10, 1, 3/10] 4 = none := by
  refine ⟨fun l t h => ?_, fun l t h => ?_, rfl⟩
  · simp [listEpsilonCall, List.getElem?_eq_getElem h]
  · simp [listEpsilonCall, List.getElem?_eq_none h]

/-- Witness for C8 on a two-element schedule: index 0 is returned, index
3 raises. -/
theorem list_epsilon_spec_witness :
    listEpsilonCall [(5:ℚ), 7] 0 = some 5 ∧ listEpsilonCall [(5:ℚ), 7] 3 = none := by
  refine ⟨?_, list_epsilon_spec.2.1 [(5:ℚ), 7] 3 (by norm_num)⟩
  have h := list_epsilon_spec.1 [(5:ℚ), 7] 0 (by norm_num)
  simpa using h

/-- C9: once a value has been frozen for a generation, every later
lifecycle operation — initialize, update or read, for any schedule
variant, and `Temperature.update` in particular — leaves the value
returned for that generation unchanged. -/
theorem frozen_value_stable :
    (∀ (D : Type) (initVal updVal : ℕ → D → ℚ) (ops : List (SchedOp D))
      (s : ScheduleState) (t : ℕ) (v : ℚ), s.lookup t = some v →
      (applyOps initVal updVal s ops).lookup t = some v)
    ∧ (∀ (D : Type) (m : ℕ) (schemes : List (ℕ → D → Option ℚ)) (t : ℕ) (data : D)
      (s s' : ScheduleState), temperatureUpdate m schemes t data s = some s' →
      ∀ (t' : ℕ) (v : ℚ), s.lookup t' = some v → s'.lookup t' = some v) := by
  constructor
  · intro D initVal updVal ops
    induction ops with
    | nil => intro s t v h; exact h
    | cons op rest ih =>
      intro s t v h
      have hstep : (applyOp initVal updVal s op).lookup t = some v := by
        cases op with
        | init t0 data => exact lookup_record_stable s t t0 v _ h
        | update t0 data => exact lookup_record_stable s t t0 v _ h
        | read t0 => exact h
      exact ih (applyOp initVal updVal s op) t v hstep
  · intro D m schemes t data s s' hupd t' v h
    simp only [temperatureUpdate] at hupd
    by_cases hfin : t = m - 1
    · rw [if_pos hfin] at hupd
      obtain rfl : s.record t 1 = s' := Option.some.inj hupd
      exact lookup_record_stable s t' t v 1 h
    · rw [if_neg hfin] at hupd
      cases hev : evalSchemes schemes t data with
      | none => rw [hev] at hupd; exact Option.noConfusion hupd
      | some cands =>
        rw [hev] at hupd
        obtain rfl : s.record t (combineCandidates cands) = s' := Option.some.inj hupd
        exact lookup_record_stable s t' t v _ h

/-- Witness for C9: generation 0 frozen at 5 stays 5 across further
updates and initializations (even ones targeting generation 0 again) and
across a temperature update. -/
theorem frozen_value_stable_witness :
    (applyOps (fun (_ : ℕ) (_ : Unit) => (7:ℚ)) (fun _ _ => 9) ⟨[(0, 5)]⟩
      [SchedOp.update 0 (), SchedOp.init 0 (), SchedOp.update 3 ()]).lookup 0 = some 5
    ∧ ScheduleState.lookup ⟨[(0, 5), (1, 1)]⟩ 0 = some 5 :=
  ⟨frozen_value_stable.1 Unit _ _ _ ⟨[(0, 5)]⟩ 0 5 rfl,
   frozen_value_stable.2 Unit 4 [] 1 () ⟨[(0, 5)]⟩ ⟨[(0, 5), (1, 1)]⟩ rfl 0 5 rfl⟩
